import Mathlib

/-!
# Verification of the marketstore core against its specification

Shallow embedding of the relevant parts of the marketstore repository:

* `contrib/iex/api/api.go` — the `GetBars` batched HTTP fetcher (recursion
  structure, retry and binary-split logic);
* the `start` command (`executeStart`, `shutdown`) — frontend writer wiring
  for replica mode, and the signal-triggered shutdown sequence;
* the query engine (`ExecutableStatement.Materialize`), aggregators
  (`count`, `tickcandler`) and the replication `Retryer` — these packages are
  not part of the provided sources, so they are modelled from the
  specification and validated against the concrete assertions of the
  in-repo test file `sqlparser_test`.
-/

set_option maxRecDepth 100000

namespace Marketstore

/-! ## IEX `GetBars` (contrib/iex/api/api.go)

The Go function issues one batched HTTP GET per call and recurses on
three paths: HTTP 429 (rate limited) with `retries-1`; HTTP 451
(`DELAYED_OTC` symbol present) splitting the symbol list in halves; and a
null `chart` field in an otherwise valid response, again with `retries-1`.
Global mutable state (`symbolsExcluded`) is threaded explicitly, and the
sequence of HTTP responses is an oracle indexed by the call counter. -/

/-- Abstraction of one HTTP response as observed by `GetBars`:
the status code, whether reading the body succeeds, whether
`json.Unmarshal` succeeds, and whether the first requested symbol's
`Chart` field is null. -/
structure HttpResp where
  status : Nat
  bodyReadOk : Bool
  jsonOk : Bool
  chartNull : Bool
  deriving DecidableEq, Repr

/-- The mutable state of the `api` package threaded through `GetBars`:
the number of HTTP calls issued so far (indexing the response oracle) and
the `symbolsExcluded` set. -/
structure ApiState where
  callCount : Nat
  excluded : List String
  deriving DecidableEq, Repr

/-- Outcome of a `GetBars` call: `ok` abstracts `(*GetBarsResponse, nil)`,
`err` abstracts a non-nil `error` return (including the Go panic on
indexing `symbols[0]` with an empty filtered list, which also terminates
the call). -/
inductive GBOutcome where
  | ok
  | err
  deriving DecidableEq, Repr

/-- `SupportedRange` from api.go: the fixed list of accepted bar ranges. -/
def supportedRange (r : String) : Bool :=
  r = "5y" || r = "2y" || r = "1y" || r = "ytd" || r = "6m" || r = "3m" ||
  r = "1m" || r = "1d" || r = "date" || r = "dynamic"

/-- Fuel-indexed embedding of `GetBars` from api.go.  `none` signals fuel
exhaustion only; every step mirrors the Go control flow in source order:
empty-symbols early return, `symbolsExcluded` filter, `SupportedRange`
check, HTTP GET (consuming one oracle entry), the 429 retry path, body
read, the 451 binary-split path (whose combined result is returned with a
nil error regardless of sub-errors, as in the source), JSON decode, and
the null-chart retry path.  The Go code indexes `symbols[0]` after the
filter; with an empty filtered list that is a panic, modelled as `err`. -/
def getBarsF (env : Nat → HttpResp) :
    Nat → ApiState → List String → String → Option Int → Nat →
    Option (GBOutcome × ApiState)
  | 0, _, _, _, _, _ => none
  | fuel + 1, st, symbols, barRange, limit, retries =>
    if symbols.isEmpty then some (.ok, st)
    else
      let filtered := symbols.filter (fun s => !st.excluded.contains s)
      if !supportedRange barRange then some (.err, st)
      else
        let resp := env st.callCount
        let st1 : ApiState := ⟨st.callCount + 1, st.excluded⟩
        if resp.status = 429 then
          if retries > 0 then
            getBarsF env fuel st1 filtered barRange limit (retries - 1)
          else some (.err, st1)
        else if !resp.bodyReadOk then some (.err, st1)
        else if resp.status = 451 then
          if filtered.length = 1 then
            some (.err, ⟨st1.callCount, filtered.headD "" :: st1.excluded⟩)
          else
            let split := filtered.length / 2
            match getBarsF env fuel st1 (filtered.take split) barRange limit retries with
            | none => none
            | some (_, st2) =>
              match getBarsF env fuel st2 (filtered.drop split) barRange limit retries with
              | none => none
              | some (_, st3) => some (.ok, st3)
        else if !resp.jsonOk then some (.err, st1)
        else if filtered.isEmpty then some (.err, st1)
        else if resp.chartNull then
          if retries > 0 then
            getBarsF env fuel st1 filtered barRange limit (retries - 1)
          else some (.err, st1)
        else some (.ok, st1)

/-- The fuel budget sufficient for `getBarsF`: one unit per element of the
lexicographic measure (length of the symbol list, remaining retries). -/
def getBarsFuel (symbols : List String) (retries : Nat) : Nat :=
  symbols.length + retries + 1

/-- `GetBars` as a total function: run the fuel-indexed embedding at the
sufficient budget. -/
def getBars (env : Nat → HttpResp) (st : ApiState) (symbols : List String)
    (barRange : String) (limit : Option Int) (retries : Nat) :
    Option (GBOutcome × ApiState) :=
  getBarsF env (getBarsFuel symbols retries) st symbols barRange limit retries

/-! ## Start command (cmd/start): frontend writer wiring and shutdown

`executeStart` constructs the HTTP-RPC server (`frontend.NewServer`) and
the gRPC API service (`frontend.NewGRPCService`).  When
`config.Replication.MasterHost` is non-empty the process is a replica:
both frontends receive an `executor.ErrorWriter`; otherwise both receive
the real `executor.Writer`. -/

/-- The writer implementation a frontend is constructed with. -/
inductive WriterKind where
  | realWriter
  | errWriter
  deriving DecidableEq, Repr

/-- The writer handed to each of the two frontends by `executeStart`. -/
structure FrontendWriters where
  rpcServer : WriterKind
  grpcService : WriterKind
  deriving DecidableEq, Repr

/-- Embedding of the frontend construction branch of `executeStart`
(part_000 lines 173–210): replica mode iff `MasterHost` is non-empty. -/
def frontendWriters (masterHost : String) : FrontendWriters :=
  if masterHost ≠ "" then ⟨.errWriter, .errWriter⟩
  else ⟨.realWriter, .realWriter⟩

/-- Result of a `WriteCSM` call through a frontend's writer. -/
inductive WriteResult where
  | accepted
  | readOnlyReplica
  deriving DecidableEq, Repr

/-- Modelled from the spec: the `executor.ErrorWriter` implementation is
not under the provided sources; per §4.4 it "rejects all calls with
`ReadOnlyReplica`", while the real `Writer` accepts the call.  `writeCall`
dispatches an external Write on a frontend's writer. -/
def writeCall (k : WriterKind) : WriteResult :=
  match k with
  | .errWriter => .readOnlyReplica
  | .realWriter => .accepted

/-- The steps executed by the signal handler of `executeStart`
(part_000 lines 272–291) followed by `shutdown` (lines 300–307), on
receipt of `SIGINT` or `SIGTERM`, listed in program order. -/
inductive ShutdownStep where
  | stopGrpcApiServer
  | cancelGlobalContext
  | stopGrpcReplicationServer
  | setUnqueryable
  | sleepGracePeriod
  | markShutdownPending
  | waitWalGroup
  | exitProcess
  deriving DecidableEq, Repr

/-- The shutdown sequence in source order: `grpcServer.GracefulStop()`;
`globalCancel()`; `grpcReplicationServer.Stop()` (when replication is
enabled); `atomic.StoreUint32(&frontend.Queryable, 0)`;
`time.Sleep(config.StopGracePeriod)`; then `shutdown`: set
`*shutdownPending = true`, `walWaitGroup.Wait()`, `os.Exit(0)`. -/
def shutdownSequence : List ShutdownStep :=
  [.stopGrpcApiServer, .cancelGlobalContext, .stopGrpcReplicationServer,
   .setUnqueryable, .sleepGracePeriod, .markShutdownPending,
   .waitWalGroup, .exitProcess]

/-- `step1` occurs strictly before `step2` in the shutdown sequence. -/
def shutdownBefore (step1 step2 : ShutdownStep) : Prop :=
  shutdownSequence.indexOf step1 < shutdownSequence.indexOf step2

instance (step1 step2 : ShutdownStep) : Decidable (shutdownBefore step1 step2) :=
  inferInstanceAs (Decidable (_ < _))

/-! ## Replication Receiver retrier

`executeStart` launches
`replication.NewRetryer(replicationReceiver.Run, retryInterval,
retryBackoffCoeff).Run(ctx)`; the `replication` package itself is not
under the provided sources, so the retrier is modelled from the spec. -/

/-- One observable event of the replication stream as seen by the
retrier: a successful receive, or a stream error. -/
inductive StreamEv where
  | okRecv
  | fail
  deriving DecidableEq, Repr

/-- Modelled from the spec: delay before retry attempt `n` (§4.8:
"delay = retryInterval × retryBackoffCoeff^attempt"). -/
def retryDelay (retryInterval retryBackoffCoeff n : Nat) : Nat :=
  retryInterval * retryBackoffCoeff ^ n

/-- Modelled from the spec: the cap on the retry attempt counter (§4.8
"attempt capped at 10"; §9 "this spec caps at 10 attempts"). -/
def retryCap : Nat := 10

/-- Modelled from the spec: the `replication.Retryer` run loop (§4.8),
which is absent from the provided sources.  Given the stream-event trace,
it returns the list of delays slept before each reconnection attempt and
whether the retrier halted with an error because the attempt counter
reached the cap.  A successful receive resets the attempt counter to
zero; a stream error with the counter below the cap sleeps
`retryDelay attempt` and retries with the counter incremented; at the
cap, retrying stops. -/
def retryerRun (retryInterval retryBackoffCoeff : Nat) :
    Nat → List StreamEv → List Nat × Bool
  | _, [] => ([], false)
  | _, .okRecv :: evs => retryerRun retryInterval retryBackoffCoeff 0 evs
  | attempt, .fail :: evs =>
    if attempt < retryCap then
      let (delays, halted) :=
        retryerRun retryInterval retryBackoffCoeff (attempt + 1) evs
      (retryDelay retryInterval retryBackoffCoeff attempt :: delays, halted)
    else ([], true)

/-! ## Query engine (sqlparser / ExecutableStatement.Materialize)

The engine implementation is not under the provided sources; only its
test file (`sqlparser_test`) is.  The model below follows the
specification §4.5 and is validated against every concrete assertion of
`TestExecutableStatement`, `TestAggregation`, `TestCount` and
`TestInsertInto`. -/

/-- A fixed-bucket record as the claims need it: the `Epoch` column
(INT64 seconds) and the `Open` price column (the seeded values are exact
small integers, so prices are embedded as `Int`). -/
structure Rec where
  epoch : Int
  openPrice : Int
  deriving DecidableEq, Repr

/-- Modelled from the spec: the `Epoch` predicate sublanguage the claims
exercise (§4.5): `BETWEEN`, the four comparisons, and conjunction. -/
inductive EpochPred where
  | between (a b : Int)
  | lt (b : Int)
  | le (b : Int)
  | gt (a : Int)
  | ge (a : Int)
  | conj (p q : EpochPred)
  deriving DecidableEq, Repr

/-- Max of two optional lower bounds (`none` = unbounded below). -/
def oMax : Option Int → Option Int → Option Int
  | none, y => y
  | some x, none => some x
  | some x, some y => some (max x y)

/-- Min of two optional upper bounds (`none` = unbounded above). -/
def oMin : Option Int → Option Int → Option Int
  | none, y => y
  | some x, none => some x
  | some x, some y => some (min x y)

/-- Modelled from the spec: normalized lower bound of the Epoch time
range (§4.5 step 1: "the Epoch predicate is normalized to [lo,hi] (open
intervals converted with ±1s on Epoch at second granularity)").  The
in-repo test `TestExecutableStatement` fixes `BETWEEN a AND b` to denote
the open interval `(a, b)` — the `BETWEEN '12:30' AND '13:00'` query over
the per-minute seed returns 29 rows, the same as the strict-inequality
query — so its normalized bounds are `[a+1, b-1]`. -/
def loOf : EpochPred → Option Int
  | .between a _ => some (a + 1)
  | .gt a => some (a + 1)
  | .ge a => some a
  | .lt _ => none
  | .le _ => none
  | .conj p q => oMax (loOf p) (loOf q)

/-- Modelled from the spec: normalized upper bound of the Epoch time
range; see `loOf`. -/
def hiOf : EpochPred → Option Int
  | .between _ b => some (b - 1)
  | .lt b => some (b - 1)
  | .le b => some b
  | .gt _ => none
  | .ge _ => none
  | .conj p q => oMin (hiOf p) (hiOf q)

/-- The normalized time range `[lo, hi]` of the predicate is empty. -/
def emptyRange (p : EpochPred) : Bool :=
  match loOf p, hiOf p with
  | some lo, some hi => hi < lo
  | _, _ => false

/-- A record epoch lies in the normalized time range of the predicate. -/
def inRange (p : EpochPred) (e : Int) : Bool :=
  (match loOf p with
   | some lo => lo ≤ e
   | none => true) &&
  (match hiOf p with
   | some hi => e ≤ hi
   | none => true)

/-- Projection of the statements the claims exercise: a plain column
selection, `count(*)`, or `tickcandler(window, price)`. -/
inductive Projection where
  | cols
  | countStar
  | tickCandlerOpen (window : Int)
  deriving DecidableEq, Repr

/-- A query as the plan tree sees it: target bucket, `Epoch` predicate,
residual row-wise predicate (§4.5 step 3), and projection/aggregate. -/
structure Query where
  bucket : String
  pred : EpochPred
  residual : Rec → Bool
  proj : Projection

/-- A candle produced by `tickcandler`: window-start epoch and
open/high/low/close of the price column over the window's rows. -/
structure Candle where
  epoch : Int
  o : Int
  h : Int
  l : Int
  c : Int
  deriving DecidableEq, Repr

/-- Collapse adjacent duplicates; on a sorted list this yields the
distinct values in order. -/
def dedupAdj : List Int → List Int
  | [] => []
  | [a] => [a]
  | a :: b :: rest =>
    if a = b then dedupAdj (b :: rest) else a :: dedupAdj (b :: rest)

/-- Window-aligned bucket start of epoch `t` for window width `w`
seconds (integer T-division; all epochs in scope are nonnegative). -/
def bucketStart (w t : Int) : Int := (t / w) * w

/-- First element of a price list (0 on empty input, which `tickcandler`
never produces for a bucket it emits). -/
def firstOf : List Int → Int
  | [] => 0
  | p :: _ => p

/-- Maximum of a price list starting from its head. -/
def maxOf : List Int → Int
  | [] => 0
  | p :: ps => ps.foldl max p

/-- Minimum of a price list starting from its head. -/
def minOf : List Int → Int
  | [] => 0
  | p :: ps => ps.foldl min p

/-- Last element of a price list. -/
def lastOf : List Int → Int
  | [] => 0
  | p :: ps => ps.foldl (fun _ x => x) p

/-- The window-start epochs of the non-empty buckets of the input rows,
in input order (the inputs in scope are sorted by epoch, so adjacent
deduplication yields each non-empty bucket exactly once, ascending). -/
def bucketStarts (w : Int) (rows : List Rec) : List Int :=
  dedupAdj (rows.map (fun r => bucketStart w r.epoch))

/-- The prices of the rows falling in the bucket starting at `b`. -/
def bucketPrices (w b : Int) (rows : List Rec) : List Int :=
  (rows.filter (fun r => bucketStart w r.epoch = b)).map Rec.openPrice

/-- Modelled from the spec: the `tickcandler(window, price)` aggregate
(§4.6: "produces {Epoch, Open, High, Low, Close} bucketed into
window-aligned groups").  For every non-empty window-aligned bucket it
emits one candle whose epoch is the window start and whose
open/high/low/close are the first/maximum/minimum/last price of the
bucket.  Validated against the exact candle values asserted by
`TestAggregation`. -/
def tickcandler (w : Int) (rows : List Rec) : List Candle :=
  (bucketStarts w rows).map (fun b =>
    let ps := bucketPrices w b rows
    ⟨b, firstOf ps, maxOf ps, minOf ps, lastOf ps⟩)

/-- Modelled from the spec: the `count(*)` aggregate applied to a column
series returns a single-row series whose `Count` column is the number of
input rows, accumulated row by row (streaming `Accum`). -/
def countAccum (rows : List Rec) : Int :=
  rows.foldl (fun n _ => n + 1) 0

/-- A materialized result: a plain column series of rows, a `Count`
column, or a series of candles. -/
inductive QueryResult where
  | rows (rs : List Rec)
  | counts (ns : List Int)
  | candles (cs : List Candle)
  deriving DecidableEq, Repr

/-- Number of rows of a materialized result (`ColumnSeries.Len`). -/
def QueryResult.len : QueryResult → Nat
  | .rows rs => rs.length
  | .counts ns => ns.length
  | .candles cs => cs.length

/-- Errors surfaced by `Materialize`; the claims only need the
bucket-resolution failure. -/
inductive MatErr where
  | bucketNotFound
  deriving DecidableEq, Repr

/-- The catalog as the scan sees it: bucket key to its records in
ascending epoch order. -/
abbrev Catalog := List (String × List Rec)

/-- Resolve a bucket key in the catalog. -/
def lookupStore (cat : Catalog) (key : String) : Option (List Rec) :=
  match cat with
  | [] => none
  | (k, s) :: rest => if k = key then some s else lookupStore rest key

/-- Modelled from the spec: `ExecutableStatement.Materialize` (§4.5).
Resolves the bucket; normalizes the Epoch predicate to `[lo, hi]`
(`loOf`/`hiOf`); an impossible range yields an empty series with no
SegmentFile read; otherwise one slot-range read per intersecting segment
(a single year here) returns the rows in epoch order, the residual
predicate is applied row-wise, and the projection/aggregate runs last —
an aggregate over an empty scan yields an empty series, as
`TestExecutableStatement` asserts for `count(*)` over an empty range.
The second component counts SegmentFile reads performed. -/
def materialize (cat : Catalog) (q : Query) :
    Except MatErr (QueryResult × Nat) :=
  match lookupStore cat q.bucket with
  | none => .error .bucketNotFound
  | some store =>
    let (scanned, reads) :=
      if emptyRange q.pred then ([], 0)
      else (store.filter (fun r => inRange q.pred r.epoch), 1)
    let rows := scanned.filter q.residual
    match q.proj with
    | .cols => .ok (.rows rows, reads)
    | .countStar =>
      .ok (.counts (if rows.isEmpty then [] else [countAccum rows]), reads)
    | .tickCandlerOpen w => .ok (.candles (tickcandler w rows), reads)

/-- The length of a materialized result, with errors counted as length 0
(`Materialize` returning an error never reaches `cs.Len()`). -/
def matLen (r : Except MatErr (QueryResult × Nat)) : Nat :=
  match r with
  | .error _ => 0
  | .ok (res, _) => res.len

/-- The number of SegmentFile reads a materialization performed. -/
def matReads (r : Except MatErr (QueryResult × Nat)) : Nat :=
  match r with
  | .error _ => 0
  | .ok (_, n) => n

/-- The materialization succeeded. -/
def matOk (r : Except MatErr (QueryResult × Nat)) : Bool :=
  match r with
  | .error _ => false
  | .ok _ => true

/-- The epochs of a row list are strictly ascending. -/
def ascendingB : List Rec → Bool
  | [] => true
  | [_] => true
  | a :: b :: rest => a.epoch < b.epoch && ascendingB (b :: rest)

/-- The epochs of a materialized plain result are strictly ascending. -/
def matAscending (r : Except MatErr (QueryResult × Nat)) : Bool :=
  match r with
  | .ok (.rows rs, _) => ascendingB rs
  | _ => false

/-! ### Seeded test data and scenario queries

The `sqlparser_test` fixture seeds `AAPL/1Min/OHLCV` with one record per
minute; the scenarios of the claims only touch 2000-01-05, so the model
seeds that day (`2000-01-05 00:00:00 UTC = 947030400`, 1440 records at
60-second steps). -/

/-- Epoch of 2000-01-05 00:00:00 UTC. -/
def dayStart : Int := 947030400

/-- Epoch of 2000-01-05 12:30:00 UTC (`'2000-01-05-12:30'`). -/
def t1230 : Int := dayStart + 12 * 3600 + 30 * 60

/-- Epoch of 2000-01-05 13:00:00 UTC (`'2000-01-05-13:00'`). -/
def t1300 : Int := dayStart + 13 * 3600

/-- One record per minute over 2000-01-05, ascending; the seeded price is
a per-record value derived from the minute index (the claims about row
counts, ordering, bucketing and slots are independent of it). -/
def seedDay : List Rec :=
  (List.range 1440).map (fun k => ⟨dayStart + 60 * k, (k : Int) % 10⟩)

/-- The catalog the scenarios run against: the seeded 1Min bucket. -/
def testCatalog : Catalog := [("AAPL/1Min/OHLCV", seedDay)]

/-- The residual predicate of a statement with no residual column
comparisons. -/
def noResidual : Rec → Bool := fun _ => true

/-- Scenario S1: `SELECT Epoch, Open, High, Low, Close FROM
'AAPL/1Min/OHLCV' WHERE Epoch BETWEEN '2000-01-05-12:30' AND
'2000-01-05-13:00'`. -/
def qS1 : Query :=
  ⟨"AAPL/1Min/OHLCV", .between t1230 t1300, noResidual, .cols⟩

/-- The strict-inequality variant: `WHERE Epoch > '2000-01-05-12:30' AND
Epoch < '2000-01-05-13:00'`. -/
def qStrict : Query :=
  ⟨"AAPL/1Min/OHLCV", .conj (.gt t1230) (.lt t1300), noResidual, .cols⟩

/-- Scenario S2: the impossible predicate `WHERE Epoch <
'2000-01-05-12:30' AND Epoch > '2000-01-05-13:00'`. -/
def qS2 : Query :=
  ⟨"AAPL/1Min/OHLCV", .conj (.lt t1230) (.gt t1300), noResidual, .cols⟩

/-- Scenario S3: `SELECT count(*) ... WHERE Epoch BETWEEN ...`. -/
def qS3 : Query :=
  ⟨"AAPL/1Min/OHLCV", .between t1230 t1300, noResidual, .countStar⟩

/-- Scenario S4: `SELECT TickCandler('5Min', Open) ... WHERE Epoch
BETWEEN ...`. -/
def qS4 : Query :=
  ⟨"AAPL/1Min/OHLCV", .between t1230 t1300, noResidual,
   .tickCandlerOpen 300⟩

/-- The rows of one committed write transaction. -/
abbrev Txn := List Rec

/-- Modelled from the spec: `INSERT INTO '<bucket>' SELECT ...` (§4.5
step 6: "INSERT INTO forwards to the Writer using a single transaction").
Materializes the inner select and hands its rows to the Writer as one
transaction for the destination bucket. -/
def insertSelect (cat : Catalog) (dest : String) (q : Query) :
    Except MatErr (String × List Txn) :=
  match materialize cat q with
  | .error e => .error e
  | .ok (.rows rs, _) => .ok (dest, [rs])
  | .ok (.counts _, _) => .error .bucketNotFound
  | .ok (.candles _, _) => .error .bucketNotFound

/-- The slot index of epoch `t` in a fixed bucket with `stepSeconds`
seconds per record, within the year starting at `y0` (§4.2: "the slot
for epoch t is (t − Y0) / stepSeconds"). -/
def slotIndex (stepSeconds y0 t : Int) : Int := (t - y0) / stepSeconds

/-- Epoch of 2000-01-01 00:00:00 UTC, the start of the year file the
scenarios touch. -/
def yearStart2000 : Int := 946684800

/-- The distinct 5Min slot indices the rows of a transaction coalesce
into (rows in scope are epoch-sorted, so adjacent deduplication counts
distinct slots). -/
def distinct5MinSlots (rows : List Rec) : Nat :=
  (dedupAdj (rows.map (fun r => slotIndex 300 yearStart2000 r.epoch))).length

/-- The empty series a projection materializes when the scan is empty. -/
def emptyResult : Projection → QueryResult
  | .cols => .rows []
  | .countStar => .counts []
  | .tickCandlerOpen _ => .candles []

/-- The five-row column series built by `makeTestCS` in the test file
(epochs 2016-12-01 10:00:00/+10s/+50s/+80s/+100s UTC, the `One` price
column `[1, 2, 3, 4, 5]`). -/
def makeTestRecs : List Rec :=
  [⟨1480586400, 1⟩, ⟨1480586410, 2⟩, ⟨1480586450, 3⟩,
   ⟨1480586480, 4⟩, ⟨1480586500, 5⟩]

/-- The strict-inequality query `Epoch > a AND Epoch < b` with
`a = '2000-01-05-12:29:59'`, `b = '2000-01-05-13:00'`. -/
def qGtltShift : Query :=
  ⟨"AAPL/1Min/OHLCV", .conj (.gt (t1230 - 1)) (.lt t1300), noResidual,
   .cols⟩

/-- The query `Epoch BETWEEN a+1s AND b-1s` for the same `a`, `b` as
`qGtltShift`. -/
def qBetweenShift : Query :=
  ⟨"AAPL/1Min/OHLCV", .between ((t1230 - 1) + 1) (t1300 - 1), noResidual,
   .cols⟩

/-- An insert-select materialized without error. -/
def insOk : Except MatErr (String × List Txn) → Bool
  | .ok _ => true
  | .error _ => false

/-- The transactions an insert-select forwarded to the Writer. -/
def insTxns : Except MatErr (String × List Txn) → List Txn
  | .ok (_, ts) => ts
  | .error _ => []

/-! ## Theorems -/

/-- Fuel sufficiency for `getBarsF`: with fuel at least
`|symbols| + retries + 1` the embedding never exhausts its fuel, because
the 429 and null-chart paths decrement `retries` and the 451 split path
recurses on strictly shorter symbol lists. -/
theorem getBarsF_isSome (env : Nat → HttpResp) :
    ∀ (fuel : Nat) (symbols : List String) (retries : Nat) (st : ApiState)
      (barRange : String) (limit : Option Int),
      symbols.length + retries + 1 ≤ fuel →
      (getBarsF env fuel st symbols barRange limit retries).isSome = true := by
  intro fuel
  induction fuel with
  | zero => intro syms r st br lim h; omega
  | succ fuel ih =>
    intro syms r st br lim h
    have hfil : (syms.filter (fun s => !st.excluded.contains s)).length ≤
        syms.length := List.length_filter_le _ _
    simp only [getBarsF]
    split
    · rfl
    · rename_i hne
      have hpos : 1 ≤ syms.length := by
        cases syms with
        | nil => simp at hne
        | cons a as => simp
      split
      · rfl
      · split
        · -- HTTP 429
          split
          · rename_i hr
            exact ih _ _ _ _ _ (by omega)
          · rfl
        · split
          · rfl
          · split
            · -- HTTP 451
              split
              · rfl
              · rename_i hlen1
                set filtered := syms.filter (fun s => !st.excluded.contains s)
                  with hfiltdef
                have htake :
                    (filtered.take (filtered.length / 2)).length + r + 1 ≤
                      fuel := by
                  rw [List.length_take]
                  omega
                have hdrop :
                    (filtered.drop (filtered.length / 2)).length + r + 1 ≤
                      fuel := by
                  rw [List.length_drop]
                  omega
                have h0 := ih (filtered.take (filtered.length / 2)) r
                  ⟨st.callCount + 1, st.excluded⟩ br lim htake
                obtain ⟨⟨r2, st2⟩, heq2⟩ := Option.isSome_iff_exists.mp h0
                rw [heq2]
                have h1 := ih (filtered.drop (filtered.length / 2)) r
                  st2 br lim hdrop
                obtain ⟨⟨r3, st3⟩, heq3⟩ := Option.isSome_iff_exists.mp h1
                simp [heq3]
            · split
              · rfl
              · split
                · rfl
                · split
                  · -- null chart
                    split
                    · rename_i hr
                      exact ih _ _ _ _ _ (by omega)
                    · rfl
                  · rfl

/-- C10: `GetBars` terminates for every symbols list, bar range, limit,
retry budget, excluded-set state and sequence of HTTP responses: run at
the fuel budget given by the lexicographic measure
(length of the symbol list, retries), the embedding always returns a
result — the HTTP-429 and null-chart paths decrement `retries`, the
HTTP-451 binary-split path recurses on strictly shorter halves, and the
single-symbol and retries-exhausted cases return errors. -/
theorem getBars_terminates (env : Nat → HttpResp) (st : ApiState)
    (symbols : List String) (barRange : String) (limit : Option Int)
    (retries : Nat) :
    (getBars env st symbols barRange limit retries).isSome = true :=
  getBarsF_isSome env (getBarsFuel symbols retries) symbols retries st
    barRange limit (Nat.le_refl _)

/-- C3: when `Replication.MasterHost` is non-empty (replica mode),
`executeStart` constructs both the RPC and gRPC frontends with the
`ErrorWriter`, so every external Write call is rejected with
`ReadOnlyReplica`; when `MasterHost` is empty both frontends are
constructed with the real `Writer`. -/
theorem replica_frontend_wiring (masterHost : String) :
    (masterHost ≠ "" →
      frontendWriters masterHost = ⟨.errWriter, .errWriter⟩ ∧
      writeCall (frontendWriters masterHost).rpcServer = .readOnlyReplica ∧
      writeCall (frontendWriters masterHost).grpcService = .readOnlyReplica) ∧
    (masterHost = "" →
      frontendWriters masterHost = ⟨.realWriter, .realWriter⟩ ∧
      writeCall (frontendWriters masterHost).rpcServer = .accepted ∧
      writeCall (frontendWriters masterHost).grpcService = .accepted) := by
  constructor <;> intro h <;> simp [frontendWriters, writeCall, h]

/-- Witness for C3 at the concrete hosts `"master.local:5995"` (replica)
and `""` (master). -/
theorem replica_frontend_wiring_witness :
    (frontendWriters "master.local:5995" = ⟨.errWriter, .errWriter⟩ ∧
      writeCall (frontendWriters "master.local:5995").rpcServer =
        .readOnlyReplica ∧
      writeCall (frontendWriters "master.local:5995").grpcService =
        .readOnlyReplica) ∧
    (frontendWriters "" = ⟨.realWriter, .realWriter⟩ ∧
      writeCall (frontendWriters "").rpcServer = .accepted ∧
      writeCall (frontendWriters "").grpcService = .accepted) :=
  ⟨(replica_frontend_wiring "master.local:5995").1 (by decide),
   (replica_frontend_wiring "").2 rfl⟩

/-- C4 counterexample: in the signal handler of `executeStart`, the
`Queryable` flag is flipped only after the gRPC API server and the
replication server have already been stopped, so the claimed order
(flip the queryable flag first, then stop the servers) is false. -/
theorem shutdown_claim_order_false :
    shutdownBefore .stopGrpcApiServer .setUnqueryable ∧
    shutdownBefore .stopGrpcReplicationServer .setUnqueryable ∧
    ¬ shutdownBefore .setUnqueryable .stopGrpcApiServer ∧
    ¬ shutdownBefore .setUnqueryable .stopGrpcReplicationServer := by
  decide

/-- C4 amended: on `SIGINT`/`SIGTERM` the shutdown sequence first stops
the RPC and replication servers gracefully, then flips the queryable
flag to reject new queries, then waits the configured grace period for
in-flight writes, then signals the WAL flusher and waits for it to
finish before exiting. -/
theorem shutdown_sequence_order :
    shutdownBefore .stopGrpcApiServer .stopGrpcReplicationServer ∧
    shutdownBefore .stopGrpcReplicationServer .setUnqueryable ∧
    shutdownBefore .setUnqueryable .sleepGracePeriod ∧
    shutdownBefore .sleepGracePeriod .markShutdownPending ∧
    shutdownBefore .markShutdownPending .waitWalGroup ∧
    shutdownBefore .waitWalGroup .exitProcess := by
  decide

/-- A run of `j` consecutive stream errors from attempt counter `a`,
staying below the cap, sleeps the exponential-backoff delays for
attempts `a, a+1, …, a+j-1` and continues with counter `a + j`. -/
theorem retryerRun_replicate_fail (ri c : Nat) :
    ∀ (j a : Nat) (evs : List StreamEv), a + j ≤ retryCap →
      retryerRun ri c a (List.replicate j .fail ++ evs) =
        ((List.range j).map (fun i => retryDelay ri c (a + i)) ++
           (retryerRun ri c (a + j) evs).1,
         (retryerRun ri c (a + j) evs).2) := by
  intro j
  induction j with
  | zero => intro a evs _; simp
  | succ j ih =>
    intro a evs hcap
    have ha : a < retryCap := by omega
    rw [List.replicate_succ, List.cons_append]
    rw [show retryerRun ri c a (.fail :: (List.replicate j .fail ++ evs)) =
          if a < retryCap then
            (retryDelay ri c a ::
               (retryerRun ri c (a + 1) (List.replicate j .fail ++ evs)).1,
             (retryerRun ri c (a + 1) (List.replicate j .fail ++ evs)).2)
          else ([], true) from rfl]
    rw [if_pos ha, ih (a + 1) evs (by omega)]
    have hrange : (List.range (j + 1)).map (fun i => retryDelay ri c (a + i)) =
        retryDelay ri c a ::
          (List.range j).map (fun i => retryDelay ri c (a + 1 + i)) := by
      rw [List.range_succ_eq_map, List.map_cons, List.map_map]
      refine congrArg₂ _ (by simp) (congrArg₂ _ (funext fun i => ?_) rfl)
      simp [Function.comp]
      ring_nf
    rw [hrange]
    have harg : a + 1 + j = a + (j + 1) := by omega
    rw [harg]
    simp

/-- C9: on stream errors the Receiver's retrier sleeps
`retryInterval × retryBackoffCoeff^n` before attempt `n`; the attempt
counter is capped at 10, after which a further error halts retrying; any
successful receive resets the counter to zero. -/
theorem retryer_backoff (ri c : Nat) :
    (∀ j : Nat, j ≤ retryCap →
      retryerRun ri c 0 (List.replicate j .fail) =
        ((List.range j).map (retryDelay ri c), false)) ∧
    (∀ evs : List StreamEv,
      retryerRun ri c 0 (List.replicate (retryCap + 1) .fail ++ evs) =
        ((List.range retryCap).map (retryDelay ri c), true)) ∧
    (∀ (n : Nat) (evs : List StreamEv),
      retryerRun ri c n (.okRecv :: evs) = retryerRun ri c 0 evs) := by
  refine ⟨fun j hj => ?_, fun evs => ?_, fun n evs => rfl⟩
  · have h := retryerRun_replicate_fail ri c j 0 [] (by omega)
    simpa [retryerRun] using h
  · rw [List.replicate_succ', List.append_assoc, List.singleton_append]
    have h := retryerRun_replicate_fail ri c retryCap 0 (.fail :: evs)
      (by omega)
    rw [h]
    rw [show retryerRun ri c (0 + retryCap) (.fail :: evs) =
          if 0 + retryCap < retryCap then
            (retryDelay ri c (0 + retryCap) ::
               (retryerRun ri c (0 + retryCap + 1) evs).1,
             (retryerRun ri c (0 + retryCap + 1) evs).2)
          else ([], true) from rfl]
    simp

/-- Witness for C9: with `retryInterval = 2`, `retryBackoffCoeff = 3`,
three consecutive failures sleep 2, 6, 18 and keep retrying; eleven
consecutive failures halt; a success resets the counter. -/
theorem retryer_backoff_witness :
    retryerRun 2 3 0 (List.replicate 3 .fail) = ([2, 6, 18], false) ∧
    retryerRun 2 3 0 (List.replicate 11 .fail) =
      ([2, 6, 18, 54, 162, 486, 1458, 4374, 13122, 39366], true) ∧
    retryerRun 2 3 7 [.okRecv, .fail] = ([2], false) := by
  refine ⟨?_, ?_, ?_⟩
  · have h := (retryer_backoff 2 3).1 3 (by decide)
    simpa [retryDelay] using h
  · have h := (retryer_backoff 2 3).2.1 []
    rw [show (List.replicate 11 StreamEv.fail) =
          List.replicate (retryCap + 1) StreamEv.fail ++ [] from by
        simp [retryCap]]
    rw [h]
    simp [retryCap, retryDelay]
    decide
  · have h := (retryer_backoff 2 3).2.2 7 [.fail]
    rw [h]
    have h2 := (retryer_backoff 2 3).1 1 (by decide)
    simpa [retryDelay, List.replicate] using h2

/-- C1: the S1 point query — `SELECT Epoch, Open, High, Low, Close FROM
'AAPL/1Min/OHLCV' WHERE Epoch BETWEEN '2000-01-05-12:30' AND
'2000-01-05-13:00'` over the one-record-per-minute seed — materializes
without error into a column series of exactly 29 rows in strictly
ascending `Epoch` order (with one SegmentFile read). -/
theorem point_query_29_rows :
    matOk (materialize testCatalog qS1) = true ∧
    matLen (materialize testCatalog qS1) = 29 ∧
    matAscending (materialize testCatalog qS1) = true ∧
    matReads (materialize testCatalog qS1) = 1 := by
  refine ⟨by decide, by decide, by decide, by decide⟩

/-- C2: an `Epoch` predicate denoting an empty time range — for example
`Epoch < t1 AND Epoch > t2` with `t1 ≤ t2` — materializes (for any
resolvable bucket, residual predicate and projection) into the empty
column series with no error and zero SegmentFile reads. -/
theorem empty_range_no_reads :
    (∀ t1 t2 : Int, t1 ≤ t2 →
      emptyRange (.conj (.lt t1) (.gt t2)) = true) ∧
    ∀ (cat : Catalog) (q : Query) (store : List Rec),
      lookupStore cat q.bucket = some store →
      emptyRange q.pred = true →
      materialize cat q = .ok (emptyResult q.proj, 0) ∧
      matLen (materialize cat q) = 0 ∧
      matReads (materialize cat q) = 0 ∧
      matOk (materialize cat q) = true := by
  constructor
  · intro t1 t2 h
    simp only [emptyRange, loOf, hiOf, oMax, oMin]
    simp only [decide_eq_true_eq]
    omega
  · intro cat q store hres hempty
    have hmat : materialize cat q = .ok (emptyResult q.proj, 0) := by
      unfold materialize
      rw [hres, hempty]
      cases hq : q.proj <;> simp [emptyResult, tickcandler, bucketStarts,
        dedupAdj, bucketPrices, countAccum]
    refine ⟨hmat, ?_, ?_, ?_⟩ <;>
      rw [hmat] <;> cases q.proj <;> simp [matLen, matReads, matOk,
        emptyResult, QueryResult.len]

/-- Witness for C2: the S2 impossible predicate `Epoch <
'2000-01-05-12:30' AND Epoch > '2000-01-05-13:00'` over the seeded
catalog returns the empty series with zero reads. -/
theorem empty_range_no_reads_witness :
    materialize testCatalog qS2 = .ok (emptyResult .cols, 0) ∧
    matLen (materialize testCatalog qS2) = 0 ∧
    matReads (materialize testCatalog qS2) = 0 ∧
    matOk (materialize testCatalog qS2) = true :=
  empty_range_no_reads.2 testCatalog qS2 seedDay rfl
    (empty_range_no_reads.1 t1230 t1300 (by decide))

/-- C5 counterexample: with `a = '2000-01-05-12:29:59'` and
`b = '2000-01-05-13:00'`, the strict query `Epoch > a AND Epoch < b`
returns 30 rows over the per-minute seed while
`Epoch BETWEEN a+1s AND b-1s` returns 29 — the two are not evaluated
identically, refuting the claim as stated. -/
theorem open_interval_claim_false :
    matLen (materialize testCatalog qGtltShift) = 30 ∧
    matLen (materialize testCatalog qBetweenShift) = 29 ∧
    materialize testCatalog qGtltShift ≠
      materialize testCatalog qBetweenShift := by
  refine ⟨by decide, by decide, fun h => ?_⟩
  have h2 := congrArg matLen h
  rw [show matLen (materialize testCatalog qGtltShift) = 30 from by decide,
      show matLen (materialize testCatalog qBetweenShift) = 29 from by
        decide] at h2
  exact absurd h2 (by decide)

/-- C5 amended: `Epoch > a AND Epoch < b` is evaluated identically to
`Epoch BETWEEN a AND b` on the same bounds — both normalize to the
closed range `[a+1s, b-1s]` at second granularity — and in particular
the strict-inequality query on '2000-01-05-12:30'/'2000-01-05-13:00'
materializes the same 29 rows as the BETWEEN query on those bounds. -/
theorem open_interval_normalization :
    (∀ (cat : Catalog) (bucket : String) (a b : Int) (res : Rec → Bool)
       (proj : Projection),
      materialize cat ⟨bucket, .conj (.gt a) (.lt b), res, proj⟩ =
        materialize cat ⟨bucket, .between a b, res, proj⟩) ∧
    loOf (.conj (.gt 0) (.lt 5)) = some 1 ∧
    hiOf (.conj (.gt 0) (.lt 5)) = some 4 ∧
    matLen (materialize testCatalog qStrict) = 29 ∧
    materialize testCatalog qStrict = materialize testCatalog qS1 := by
  exact ⟨fun cat bucket a b res proj => rfl, rfl, rfl, by decide, rfl⟩

/-- `countAccum` streams over its input incrementing a counter once per
row, so it computes the row count. -/
theorem countAccum_eq_length (rows : List Rec) :
    countAccum rows = (rows.length : Int) := by
  have h : ∀ (l : List Rec) (k : Int),
      l.foldl (fun n _ => n + 1) k = k + l.length := by
    intro l
    induction l with
    | nil => intro k; simp
    | cons r rs ih =>
      intro k
      rw [List.foldl_cons, ih, List.length_cons]
      push_cast
      ring
  simpa [countAccum] using h rows 0

/-- C6: the `count(*)` aggregate yields a single-row series whose
`Count` equals the number of input rows — `[5]` on the five-row test
series — and the S3 statement over the per-minute seed materializes
`Count = [29]`. -/
theorem count_star_rows :
    (∀ rows : List Rec,
      countAccum rows = (rows.length : Int) ∧ [countAccum rows].length = 1) ∧
    countAccum makeTestRecs = 5 ∧
    materialize testCatalog qS3 = .ok (.counts [29], 1) := by
  exact ⟨fun rows => ⟨countAccum_eq_length rows, rfl⟩, by decide, by rfl⟩

/-- Adjacent deduplication only returns values of the input list. -/
theorem mem_of_mem_dedupAdj :
    ∀ (l : List Int) (x : Int), x ∈ dedupAdj l → x ∈ l := by
  intro l
  induction l with
  | nil => intro x h; simp [dedupAdj] at h
  | cons a rest ih =>
    cases rest with
    | nil => intro x h; simpa [dedupAdj] using h
    | cons b rest2 =>
      intro x h
      rw [dedupAdj] at h
      split at h
      · exact List.mem_cons_of_mem _ (ih x h)
      · rcases List.mem_cons.mp h with h1 | h1
        · exact h1 ▸ List.mem_cons_self _ _
        · exact List.mem_cons_of_mem _ (ih x h1)

/-- A `max`-fold lands on its seed or one of the folded values. -/
theorem foldl_max_mem :
    ∀ (ps : List Int) (acc : Int), ps.foldl max acc ∈ acc :: ps := by
  intro ps
  induction ps with
  | nil => intro acc; simp
  | cons p ps ih =>
    intro acc
    rw [List.foldl_cons]
    rcases List.mem_cons.mp (ih (max acc p)) with h1 | h1
    · rw [h1]
      rcases max_choice acc p with h2 | h2 <;> rw [h2] <;> simp
    · exact List.mem_cons_of_mem _ (List.mem_cons_of_mem _ h1)

/-- A `max`-fold dominates its seed. -/
theorem le_foldl_max_seed :
    ∀ (ps : List Int) (acc : Int), acc ≤ ps.foldl max acc := by
  intro ps
  induction ps with
  | nil => intro acc; simp
  | cons p ps ih =>
    intro acc
    rw [List.foldl_cons]
    exact le_trans (le_max_left acc p) (ih (max acc p))

/-- A `max`-fold dominates every folded value. -/
theorem le_foldl_max_mem :
    ∀ (ps : List Int) (acc x : Int), x ∈ ps → x ≤ ps.foldl max acc := by
  intro ps
  induction ps with
  | nil => intro acc x h; simp at h
  | cons p ps ih =>
    intro acc x h
    rw [List.foldl_cons]
    rcases List.mem_cons.mp h with h1 | h1
    · subst h1
      exact le_trans (le_max_right acc x) (le_foldl_max_seed ps _)
    · exact ih (max acc p) x h1

/-- A `min`-fold lands on its seed or one of the folded values. -/
theorem foldl_min_mem :
    ∀ (ps : List Int) (acc : Int), ps.foldl min acc ∈ acc :: ps := by
  intro ps
  induction ps with
  | nil => intro acc; simp
  | cons p ps ih =>
    intro acc
    rw [List.foldl_cons]
    rcases List.mem_cons.mp (ih (min acc p)) with h1 | h1
    · rw [h1]
      rcases min_choice acc p with h2 | h2 <;> rw [h2] <;> simp
    · exact List.mem_cons_of_mem _ (List.mem_cons_of_mem _ h1)

/-- A `min`-fold is below its seed. -/
theorem foldl_min_le_seed :
    ∀ (ps : List Int) (acc : Int), ps.foldl min acc ≤ acc := by
  intro ps
  induction ps with
  | nil => intro acc; simp
  | cons p ps ih =>
    intro acc
    rw [List.foldl_cons]
    exact le_trans (ih (min acc p)) (min_le_left acc p)

/-- A `min`-fold is below every folded value. -/
theorem foldl_min_le_mem :
    ∀ (ps : List Int) (acc x : Int), x ∈ ps → ps.foldl min acc ≤ x := by
  intro ps
  induction ps with
  | nil => intro acc x h; simp at h
  | cons p ps ih =>
    intro acc x h
    rw [List.foldl_cons]
    rcases List.mem_cons.mp h with h1 | h1
    · subst h1
      exact le_trans (foldl_min_le_seed ps _) (min_le_right acc x)
    · exact ih (min acc p) x h1

/-- `maxOf` of a non-empty price list is one of the prices. -/
theorem maxOf_mem (ps : List Int) (h : ps ≠ []) : maxOf ps ∈ ps := by
  cases ps with
  | nil => exact absurd rfl h
  | cons p ps => exact foldl_max_mem ps p

/-- `maxOf` dominates every price. -/
theorem le_maxOf (ps : List Int) (x : Int) (h : x ∈ ps) : x ≤ maxOf ps := by
  cases ps with
  | nil => simp at h
  | cons p ps =>
    rcases List.mem_cons.mp h with h1 | h1
    · exact h1 ▸ le_foldl_max_seed ps p
    · exact le_foldl_max_mem ps p x h1

/-- `minOf` of a non-empty price list is one of the prices. -/
theorem minOf_mem (ps : List Int) (h : ps ≠ []) : minOf ps ∈ ps := by
  cases ps with
  | nil => exact absurd rfl h
  | cons p ps => exact foldl_min_mem ps p

/-- `minOf` is below every price. -/
theorem minOf_le (ps : List Int) (x : Int) (h : x ∈ ps) : minOf ps ≤ x := by
  cases ps with
  | nil => simp at h
  | cons p ps =>
    rcases List.mem_cons.mp h with h1 | h1
    · exact h1 ▸ foldl_min_le_seed ps p
    · exact foldl_min_le_mem ps p x h1

/-- Every bucket start emitted by `bucketStarts` comes from a row, so
its price list is non-empty. -/
theorem bucketPrices_ne_nil (w b : Int) (rows : List Rec)
    (h : b ∈ bucketStarts w rows) : bucketPrices w b rows ≠ [] := by
  have h1 := mem_of_mem_dedupAdj _ b h
  obtain ⟨r, hr, hrb⟩ := List.mem_map.mp h1
  intro hnil
  have h2 : r ∈ rows.filter (fun r => bucketStart w r.epoch = b) :=
    List.mem_filter.mpr ⟨hr, by simp [hrb]⟩
  rw [bucketPrices, List.map_eq_nil_iff] at hnil
  rw [hnil] at h2
  simp at h2

/-- C7: every candle emitted by `tickcandler(window, price)` belongs to
a non-empty window-aligned bucket: its epoch is the bucket's window
start (a multiple of the window width), its open and close are the
first and last price of the bucket, and its high and low are prices of
the bucket bounding every price of the bucket; over the 12:30–13:00
BETWEEN window of the per-minute seed, `TickCandler('5Min', Open)`
materializes exactly 6 candles, and on the five-row test series with a
1Min window it produces exactly the two candles the test asserts. -/
theorem tickcandler_ohlc :
    (∀ (w : Int) (rows : List Rec) (c : Candle), c ∈ tickcandler w rows →
      w ∣ c.epoch ∧
      bucketPrices w c.epoch rows ≠ [] ∧
      c.o = firstOf (bucketPrices w c.epoch rows) ∧
      c.c = lastOf (bucketPrices w c.epoch rows) ∧
      c.h ∈ bucketPrices w c.epoch rows ∧
      c.l ∈ bucketPrices w c.epoch rows ∧
      ∀ p ∈ bucketPrices w c.epoch rows, c.l ≤ p ∧ p ≤ c.h) ∧
    tickcandler 60 makeTestRecs =
      [⟨1480586400, 1, 3, 1, 3⟩, ⟨1480586460, 4, 5, 4, 5⟩] ∧
    matLen (materialize testCatalog qS4) = 6 ∧
    matOk (materialize testCatalog qS4) = true := by
  refine ⟨?_, by decide, by decide, by decide⟩
  intro w rows c hc
  obtain ⟨b, hb, hbc⟩ := List.mem_map.mp hc
  have hepoch : c.epoch = b := by rw [← hbc]
  have hbne : bucketPrices w b rows ≠ [] := bucketPrices_ne_nil w b rows hb
  have hdvd : w ∣ b := by
    have h1 := mem_of_mem_dedupAdj _ b hb
    obtain ⟨r, _, hrb⟩ := List.mem_map.mp h1
    exact ⟨r.epoch / w, by rw [← hrb, bucketStart, mul_comm]⟩
  rw [hepoch]
  subst hbc
  refine ⟨hdvd, hbne, rfl, rfl, maxOf_mem _ hbne, minOf_mem _ hbne,
    fun p hp => ⟨minOf_le _ p hp, le_maxOf _ p hp⟩⟩

/-- Witness for C7 at the first candle of the five-row test series. -/
theorem tickcandler_ohlc_witness :
    (60 : Int) ∣ (1480586400 : Int) ∧
    bucketPrices 60 1480586400 makeTestRecs ≠ [] ∧
    Candle.o ⟨1480586400, 1, 3, 1, 3⟩ =
      firstOf (bucketPrices 60 1480586400 makeTestRecs) ∧
    Candle.h ⟨1480586400, 1, 3, 1, 3⟩ ∈
      bucketPrices 60 1480586400 makeTestRecs := by
  have h := tickcandler_ohlc.1 60 makeTestRecs ⟨1480586400, 1, 3, 1, 3⟩
    (by decide)
  exact ⟨h.1, h.2.1, h.2.2.1, h.2.2.2.2.1⟩

/-- C8: the S5 insert-select — `INSERT INTO 'AAPL/5Min/OHLCV' SELECT *
FROM 'AAPL/1Min/OHLCV' WHERE Epoch BETWEEN '2000-01-05-12:30' AND
'2000-01-05-13:00'` — materializes without error and forwards the
selected rows to the Writer as exactly one transaction of 29 records,
which coalesce into 6 distinct 5Min slots. -/
theorem insert_select_single_txn :
    insOk (insertSelect testCatalog "AAPL/5Min/OHLCV" qS1) = true ∧
    (insTxns (insertSelect testCatalog "AAPL/5Min/OHLCV" qS1)).length
      = 1 ∧
    ((insTxns (insertSelect testCatalog "AAPL/5Min/OHLCV" qS1)).headD
      []).length = 29 ∧
    distinct5MinSlots
      ((insTxns (insertSelect testCatalog "AAPL/5Min/OHLCV" qS1)).headD
        []) = 6 := by
  exact ⟨by decide, by decide, by decide, by decide⟩

end Marketstore
